import Mathlib

/-!
Shallow embedding of `src/record/runtime/record_ref.rs` (the dynamic record
reference `DynRecordRef` of the tonbo storage engine) and proofs about it.

Modelling conventions:
* Machine integers are `Nat`/`Int`; casts such as `as u32` are `% 2^32` where
  the numeric value matters (for byte output we model the 4-byte width).
* Floats never flow through arithmetic here, so an `f32`/`f64` payload is
  modelled as its opaque bit pattern (a `Nat`).
* Rust panics (`unwrap`, `expect`, out-of-range `column(i)`, failed arrow
  downcasts) are modelled by `Option`: `none` is an aborted (panicking) run.
* The arrow `ProjectionMask` is external to the repository; per its contract
  it is modelled as its `leaf_included` function `Nat → Bool`.
* The arrow field `contains` structural-containment test is external to the
  repository; it is passed in as an abstract boolean predicate.
-/

/-- The runtime primitive type tag `DataType` of `record::runtime`.  Its
variants are exactly the ones dispatched on in `from_record_batch` and
`projection` (thirteen arms in both matches). -/
inductive DataType where
  | uint8
  | uint16
  | uint32
  | uint64
  | int8
  | int16
  | int32
  | int64
  | float32
  | float64
  | string
  | boolean
  | bytes
deriving DecidableEq, Repr, Fintype

/-- A primitive runtime value.  Float payloads (`F32`, `F64` wrappers in the
source) are carried as opaque bit patterns since no claim computes with them. -/
inductive Prim where
  | u8 (v : Nat)
  | u16 (v : Nat)
  | u32 (v : Nat)
  | u64 (v : Nat)
  | i8 (v : Int)
  | i16 (v : Int)
  | i32 (v : Int)
  | i64 (v : Int)
  | f32bits (v : Nat)
  | f64bits (v : Nat)
  | bool (v : Bool)
  | str (v : String)
  | bytes (v : List Nat)
deriving DecidableEq, Repr

/-- The type-erased payload behind a column's `Arc<dyn Any + Send + Sync>`.
The source stores either a bare value `T` (primary-key columns) or an
`Option<T>` (all other columns); the `DataType` argument of `opt` records the
concrete `T` of the erased `Option<T>`, so that e.g. `Arc::<Option<u8>>::new(None)`
and `Arc::<Option<u16>>::new(None)` stay distinguishable, as they are in Rust. -/
inductive Payload where
  | bare (v : Prim)
  | opt (tag : DataType) (v : Option Prim)
deriving DecidableEq, Repr

/-- The column value `record::runtime::Value`: a named, nullable, type-tagged
container (spec §3, Column Value).  The field layout follows the source struct
(`datatype`, `name`, `value`, `is_nullable`). -/
structure Value where
  datatype : DataType
  name : String
  value : Payload
  is_nullable : Bool
deriving DecidableEq, Repr

/-- `Value::new` — plain construction, no validation (spec §4.1). -/
def Value.new (datatype : DataType) (name : String) (value : Payload)
    (is_nullable : Bool) : Value :=
  ⟨datatype, name, value, is_nullable⟩

/-- Modelled from the spec: `Value::with_none_value` (in `record::runtime`,
not under `src/`) builds a column whose payload is the typed null sentinel of
the declared type — "append a Column Value whose payload is the typed null
sentinel" (spec §4.3 step 4). -/
def Value.with_none_value (datatype : DataType) (name : String)
    (is_nullable : Bool) : Value :=
  ⟨datatype, name, Payload.opt datatype none, is_nullable⟩

/-- `DynRecordRef` — an ordered sequence of column values plus the index of
the primary-key column.  The `PhantomData` lifetime marker carries no data and
is dropped. -/
structure DynRecordRef where
  columns : List Value
  primary_index : Nat
deriving DecidableEq, Repr

/-- Modelled from the spec: `crate::magic::USER_COLUMN_OFFSET` is not under
`src/`; the spec (§4.3 edge cases) fixes it as the offset "accounting for the
two leading system columns". -/
def USER_COLUMN_OFFSET : Nat := 2

/-- The thirteen-armed per-type dispatch of `DynRecordRef::projection`
(lines 245–259): the replacement payload installed for an excluded column,
`Arc::<Option<T>>::new(None)` for the `T` named by the column's tag. -/
def projectionNull (d : DataType) : Payload :=
  match d with
  | .uint8 => Payload.opt .uint8 none
  | .uint16 => Payload.opt .uint16 none
  | .uint32 => Payload.opt .uint32 none
  | .uint64 => Payload.opt .uint64 none
  | .int8 => Payload.opt .int8 none
  | .int16 => Payload.opt .int16 none
  | .int32 => Payload.opt .int32 none
  | .int64 => Payload.opt .int64 none
  | .float32 => Payload.opt .float32 none
  | .float64 => Payload.opt .float64 none
  | .string => Payload.opt .string none
  | .boolean => Payload.opt .boolean none
  | .bytes => Payload.opt .bytes none

/-- The loop body of `DynRecordRef::projection` over the enumerated columns:
`idx` is the running enumeration index. -/
def projectColumns (primary : Nat) (mask : Nat → Bool) :
    Nat → List Value → List Value
  | _, [] => []
  | idx, col :: rest =>
      (if idx ≠ primary ∧ mask (idx + USER_COLUMN_OFFSET) = false then
        { col with value := projectionNull col.datatype }
      else col) :: projectColumns primary mask (idx + 1) rest

/-- `DynRecordRef::projection` (lines 241–262): null out every non-primary
column whose leaf position (`idx + USER_COLUMN_OFFSET`) the mask excludes. -/
def DynRecordRef.projection (r : DynRecordRef) (mask : Nat → Bool) :
    DynRecordRef :=
  { r with columns := projectColumns r.primary_index mask 0 r.columns }

/-- `DynRecordRef::key` (lines 66–71):
`self.columns.get(self.primary_index).cloned().expect("The primary key must exist")`.
The `expect` panic on an out-of-range index is modelled by `none`. -/
def DynRecordRef.key (r : DynRecordRef) : Option Value :=
  r.columns.get? r.primary_index

/-- A flattened arrow field descriptor: declared name, declared primitive
type (`DataType::from(field.data_type())` is folded into the field, since the
arrow↔runtime type conversion is the identity on the thirteen supported
kinds), and declared nullability. -/
structure ArrowField where
  name : String
  datatype : DataType
  nullable : Bool
deriving DecidableEq, Repr

/-- One physical arrow column of a batch: the arrow type of the column, the
cell values, and the per-row null bit.  Cell reads (`value(offset)`) and
null checks (`is_null(offset)`) are total, as the claims never exercise
out-of-range row offsets. -/
structure PhysColumn where
  tag : DataType
  get : Nat → Prim
  isNull : Nat → Bool

/-- `Prim.asBool?` — extracting a `bool` cell; a non-bool cell in a
boolean-typed column cannot occur in arrow and is modelled as a panic. -/
def Prim.asBool? : Prim → Option Bool
  | .bool b => some b
  | _ => none

/-- `Prim.asU32?` — extracting a `u32` cell, as for `Prim.asBool?`. -/
def Prim.asU32? : Prim → Option Nat
  | .u32 n => some n
  | _ => none

/-- An arrow `RecordBatch`: its physical columns and its own (possibly
column-pruned) schema's flattened field list. -/
structure RecordBatch where
  columns : List PhysColumn
  schema : List ArrowField

/-- `record_batch.column(i).as_boolean().value(offset)`: `column(i)` panics
when out of range, `as_boolean()` panics unless the column is boolean. -/
def RecordBatch.boolValue? (b : RecordBatch) (i offset : Nat) : Option Bool :=
  match b.columns.get? i with
  | none => none
  | some col =>
      if col.tag = DataType.boolean then (col.get offset).asBool? else none

/-- `record_batch.column(i).as_primitive::<UInt32Type>().value(offset)`. -/
def RecordBatch.u32Value? (b : RecordBatch) (i offset : Nat) : Option Nat :=
  match b.columns.get? i with
  | none => none
  | some col =>
      if col.tag = DataType.uint32 then (col.get offset).asU32? else none

/-- The full (unpruned) logical schema: flattened fields plus the
string-keyed metadata map. -/
structure FullSchema where
  fields : List ArrowField
  metadata : String → Option String

/-- The numeric value of a decimal digit character, `none` otherwise. -/
def digitVal? (c : Char) : Option Nat :=
  if 48 ≤ c.toNat ∧ c.toNat ≤ 57 then some (c.toNat - 48) else none

/-- Accumulate decimal digits left to right; any non-digit rejects. -/
def parseDigits : List Char → Nat → Option Nat
  | [], acc => some acc
  | c :: cs, acc =>
      match digitVal? c with
      | none => none
      | some d => parseDigits cs (acc * 10 + d)

/-- Rust `str::parse::<usize>()`: optional leading `+`, then one or more
decimal digits, value within `usize` range (64-bit). -/
def parseUsize (s : String) : Option Nat :=
  match s.data with
  | [] => none
  | c :: cs =>
      match if c = '+' then cs else c :: cs with
      | [] => none
      | d :: ds =>
          match parseDigits (d :: ds) 0 with
          | none => none
          | some n => if n < 2 ^ 64 then some n else none

/-- The fail-fast primary-key lookup of `from_record_batch` (lines 82–86):
`metadata.get("primary_key_index").unwrap().parse::<usize>().unwrap()`;
`none` models the panic of either `unwrap`. -/
def parsedPrimaryIndex (fs : FullSchema) : Option Nat :=
  match fs.metadata "primary_key_index" with
  | none => none
  | some s => parseUsize s

/-- `DynRecordRef::primitive_value` (lines 266–286), with the expected
primitive type `d` standing for the generic parameter `T`: the
`as_primitive::<T>` downcast panics unless the column's arrow type is `d`;
a primary column is read unconditionally into a bare payload, any other
column becomes an optional payload present iff the cell is non-null and the
mask includes leaf `idx`. -/
def primitive_value (d : DataType) (col : PhysColumn) (offset idx : Nat)
    (mask : Nat → Bool) (primary : Bool) : Option Payload :=
  if col.tag = d then
    some (if primary then Payload.bare (col.get offset)
      else Payload.opt d
        (if !col.isNull offset && mask idx then some (col.get offset) else none))
  else none

/-- The thirteen-armed `match datatype` of `from_record_batch`
(lines 113–224).  The eight integer arms call `primitive_value`; the
`Float32`/`Float64`/`String`/`Boolean`/`Bytes` arms are inlined in the
source with the same shape (downcast, then primary-bypass or
null-and-mask-checked optional) and are inlined here likewise. -/
def dispatchValue (datatype : DataType) (col : PhysColumn) (offset idx : Nat)
    (mask : Nat → Bool) (primary : Bool) : Option Payload :=
  match datatype with
  | .uint8 => primitive_value .uint8 col offset idx mask primary
  | .uint16 => primitive_value .uint16 col offset idx mask primary
  | .uint32 => primitive_value .uint32 col offset idx mask primary
  | .uint64 => primitive_value .uint64 col offset idx mask primary
  | .int8 => primitive_value .int8 col offset idx mask primary
  | .int16 => primitive_value .int16 col offset idx mask primary
  | .int32 => primitive_value .int32 col offset idx mask primary
  | .int64 => primitive_value .int64 col offset idx mask primary
  | .float32 =>
      if col.tag = DataType.float32 then
        some (if primary then Payload.bare (col.get offset)
          else Payload.opt .float32
            (if !col.isNull offset && mask idx then some (col.get offset)
             else none))
      else none
  | .float64 =>
      if col.tag = DataType.float64 then
        some (if primary then Payload.bare (col.get offset)
          else Payload.opt .float64
            (if !col.isNull offset && mask idx then some (col.get offset)
             else none))
      else none
  | .string =>
      if col.tag = DataType.string then
        some (if primary then Payload.bare (col.get offset)
          else Payload.opt .string
            (if !col.isNull offset && mask idx then some (col.get offset)
             else none))
      else none
  | .boolean =>
      if col.tag = DataType.boolean then
        some (if primary then Payload.bare (col.get offset)
          else Payload.opt .boolean
            (if !col.isNull offset && mask idx then some (col.get offset)
             else none))
      else none
  | .bytes =>
      if col.tag = DataType.bytes then
        some (if primary then Payload.bare (col.get offset)
          else Payload.opt .bytes
            (if !col.isNull offset && mask idx then some (col.get offset)
             else none))
      else none

/-- `flattened_fields.iter().enumerate().find(|(_idx, f)| field.contains(f))`:
first index (with its field) satisfying the predicate, counting from `i`. -/
def findEnum (p : ArrowField → Bool) : Nat → List ArrowField → Option (Nat × ArrowField)
  | _, [] => none
  | i, f :: rest => if p f then some (i, f) else findEnum p (i + 1) rest

/-- One iteration of the materialization loop (lines 95–231) for the field at
full-schema position `idx`: match the field against the batch's own schema by
containment; a missing column becomes a typed-null `with_none_value` column
without touching batch data; a present column is read via the thirteen-way
dispatch and wrapped by `Value::new` with the field's declared name and
nullability. -/
def materializeField (batch : RecordBatch) (offset : Nat) (mask : Nat → Bool)
    (primary_index : Nat) (contains : ArrowField → ArrowField → Bool) (idx : Nat)
    (field : ArrowField) : Option Value :=
  match findEnum (fun f => contains field f) 0 batch.schema with
  | none => some (Value.with_none_value field.datatype field.name field.nullable)
  | some jf =>
      match batch.columns.get? jf.1 with
      | none => none
      | some col =>
          match dispatchValue field.datatype col offset idx mask
              (primary_index = idx - 2) with
          | none => none
          | some value =>
              some (Value.new field.datatype field.name value field.nullable)

/-- The materialization loop over the enumerated full-schema fields, `idx`
being the running enumeration index. -/
def materializeColumns (batch : RecordBatch) (offset : Nat) (mask : Nat → Bool)
    (primary_index : Nat) (contains : ArrowField → ArrowField → Bool) :
    Nat → List ArrowField → Option (List Value)
  | _, [] => some []
  | idx, field :: rest =>
      match materializeField batch offset mask primary_index contains idx field with
      | none => none
      | some v =>
          match materializeColumns batch offset mask primary_index contains
              (idx + 1) rest with
          | none => none
          | some vs => some (v :: vs)

/-- `OptionRecordRef::new(ts, record, null)` — the versioned row wrapper:
timestamp, the materialized row, and the deletion flag. -/
structure OptionRecordRef where
  ts : Nat
  record : DynRecordRef
  null : Bool
deriving DecidableEq, Repr

/-- `DynRecordRef::from_record_batch` (lines 73–239): read the deletion flag
from fixed column 0, fail-fast-parse `primary_key_index` from the full
schema's metadata, read the timestamp from fixed column 1, then materialize
one column value per full-schema field after the two fixed columns
(`enumerate().skip(2)`), and assemble the versioned row wrapper.  `none`
models a panicking run. -/
def from_record_batch (batch : RecordBatch) (offset : Nat) (mask : Nat → Bool)
    (full_schema : FullSchema) (contains : ArrowField → ArrowField → Bool) :
    Option OptionRecordRef :=
  match batch.boolValue? 0 offset with
  | none => none
  | some null =>
      match parsedPrimaryIndex full_schema with
      | none => none
      | some primary_index =>
          match batch.u32Value? 1 offset with
          | none => none
          | some ts =>
              match materializeColumns batch offset mask primary_index contains 2
                  (full_schema.fields.drop 2) with
              | none => none
              | some cols => some ⟨ts, ⟨cols, primary_index⟩, null⟩

/-- `RecordEncodeError` (in `crate::record`, declared outside `src/`): the
encoder surfaces every failure by wrapping the underlying sink (`fusio`)
error, as in `map_err(RecordEncodeError::Fusio)` and the `?`-conversions. -/
inductive RecordEncodeError (ε : Type) where
  | fusio (e : ε)
deriving DecidableEq, Repr

/-- The external encoding environment of the log encoder: `valueEnc c` is the
byte string the column value `c`'s own `Encode` impl (outside `src/`) writes,
and `accept buf bs` is the byte sink's verdict on appending `bs` when `buf`
has been written so far — `none` accepts (the sink stores the bytes), `some e`
is the sink's own error.  The sink is the only failure source of a column's
encoding, matching the `fusio::Error`-typed column errors in the source. -/
structure EncCfg (ε : Type) where
  valueEnc : Value → List Nat
  accept : List Nat → List Nat → Option ε

/-- The 4 little-endian bytes of `n as u32` (the `u32` `Encode` impl of
`fusio_log`). -/
def u32le (n : Nat) : List Nat :=
  [n % 256, n / 2 ^ 8 % 256, n / 2 ^ 16 % 256, n / 2 ^ 24 % 256]

/-- One sink write: the resulting buffer and an optional error.  A rejected
write stores nothing (what a failed sink keeps is the sink's own contract;
the encoder only guarantees it stops). -/
def sinkWrite (cfg : EncCfg ε) (buf bs : List Nat) :
    List Nat × Option (RecordEncodeError ε) :=
  match cfg.accept buf bs with
  | none => (buf ++ bs, none)
  | some e => (buf, some (RecordEncodeError.fusio e))

/-- The column loop of `DynRecordRef::encode` (lines 48–50): encode each
column in order into the sink, stopping at the first error. -/
def encodeColumns (cfg : EncCfg ε) :
    List Nat → List Value → List Nat × Option (RecordEncodeError ε)
  | buf, [] => (buf, none)
  | buf, c :: rest =>
      match cfg.accept buf (cfg.valueEnc c) with
      | some e => (buf, some (RecordEncodeError.fusio e))
      | none => encodeColumns cfg (buf ++ cfg.valueEnc c) rest

/-- `DynRecordRef::encode` (lines 42–52): write the column count as a `u32`,
the primary index as a `u32`, then every column in declaration order; an
early `?`-return leaves the later writes unattempted.  The state is the
sink's buffer; the second component is the returned `Result`. -/
def DynRecordRef.encode (cfg : EncCfg ε) (r : DynRecordRef) (buf : List Nat) :
    List Nat × Option (RecordEncodeError ε) :=
  match cfg.accept buf (u32le r.columns.length) with
  | some e => (buf, some (RecordEncodeError.fusio e))
  | none =>
    let buf1 := buf ++ u32le r.columns.length
    match cfg.accept buf1 (u32le r.primary_index) with
    | some e => (buf1, some (RecordEncodeError.fusio e))
    | none => encodeColumns cfg (buf1 ++ u32le r.primary_index) r.columns

/-- `DynRecordRef::size` (lines 54–60): `2 * mem::size_of::<u32>()` plus the
sum of the columns' own sizes; the column `size` (outside `src/`) is passed
in abstractly as `vsize`. -/
def DynRecordRef.size (vsize : Value → Nat) (r : DynRecordRef) : Nat :=
  2 * 4 + (r.columns.map vsize).sum

/-- The full sequence of writes `encode` plans: the two header words, then
one write per column. -/
def encodePlan (cfg : EncCfg ε) (r : DynRecordRef) : List (List Nat) :=
  u32le r.columns.length :: u32le r.primary_index :: r.columns.map cfg.valueEnc

/-- Whether the sink accepts a sequence of writes performed in order starting
from `buf`. -/
def writesOk (cfg : EncCfg ε) : List Nat → List (List Nat) → Bool
  | _, [] => true
  | buf, bs :: rest =>
      match cfg.accept buf bs with
      | some _ => false
      | none => writesOk cfg (buf ++ bs) rest

/-- The continuation of `from_record_batch` past the metadata unwraps, for a
given already-parsed primary index: used to state that once the metadata
entry is present and parsable the fail-fast branch is unreachable. -/
def materializeGivenPk (batch : RecordBatch) (offset : Nat) (mask : Nat → Bool)
    (full_schema : FullSchema) (contains : ArrowField → ArrowField → Bool)
    (primary_index : Nat) : Option OptionRecordRef :=
  match batch.boolValue? 0 offset with
  | none => none
  | some null =>
      match batch.u32Value? 1 offset with
      | none => none
      | some ts =>
          match materializeColumns batch offset mask primary_index contains 2
              (full_schema.fields.drop 2) with
          | none => none
          | some cols => some ⟨ts, ⟨cols, primary_index⟩, null⟩

/-- A concrete bare-payload column value, used in concrete evaluations. -/
def exampleValue : Value :=
  Value.new DataType.uint8 "id" (Payload.bare (Prim.u8 1)) false

/-- A concrete optional-payload column value, used in concrete evaluations. -/
def exampleOptValue : Value :=
  Value.new DataType.string "name" (Payload.opt DataType.string (some (Prim.str "Jack"))) true

/-- The all-excluding projection mask. -/
def maskNone : Nat → Bool := fun _ => false

/-- The all-including projection mask (`ProjectionMask::all()`). -/
def maskAll : Nat → Bool := fun _ => true

/-- A concrete containment test: match fields by name. -/
def containsName : ArrowField → ArrowField → Bool := fun a b => a.name == b.name

/-- The fixed `_null` system field of the concrete schema. -/
def fldNull : ArrowField := ⟨"_null", DataType.boolean, false⟩

/-- The fixed `ts` system field of the concrete schema. -/
def fldTs : ArrowField := ⟨"ts", DataType.uint32, false⟩

/-- A concrete user field holding the primary key. -/
def fldId : ArrowField := ⟨"id", DataType.uint8, false⟩

/-- The physical `_null` column of the concrete batch. -/
def colNull : PhysColumn := ⟨DataType.boolean, fun _ => Prim.bool false, fun _ => false⟩

/-- The physical `ts` column of the concrete batch. -/
def colTs : PhysColumn := ⟨DataType.uint32, fun _ => Prim.u32 7, fun _ => false⟩

/-- The physical `id` column of the concrete batch. -/
def colId : PhysColumn := ⟨DataType.uint8, fun _ => Prim.u8 5, fun _ => false⟩

/-- A concrete batch carrying all three columns. -/
def batchEx : RecordBatch := ⟨[colNull, colTs, colId], [fldNull, fldTs, fldId]⟩

/-- A concrete batch whose pruning dropped the `id` column. -/
def batchPruned : RecordBatch := ⟨[colNull, colTs], [fldNull, fldTs]⟩

/-- The concrete full schema: three fields, primary key at user index 0. -/
def fsEx : FullSchema := ⟨[fldNull, fldTs, fldId], fun _ => some "0"⟩

/-- A full schema whose metadata lacks `primary_key_index`. -/
def fsNoMeta : FullSchema := ⟨[fldNull, fldTs, fldId], fun _ => none⟩

/-- The row `from_record_batch` materializes from `batchEx` row 0. -/
def orrEx : OptionRecordRef :=
  ⟨7, ⟨[Value.new DataType.uint8 "id" (Payload.bare (Prim.u8 5)) false], 0⟩, false⟩

/-- The row `from_record_batch` materializes from `batchPruned` row 0. -/
def orrPruned : OptionRecordRef :=
  ⟨7, ⟨[Value.with_none_value DataType.uint8 "id" false], 0⟩, false⟩

/-- A concrete record for encoder evaluations. -/
def encRecEx : DynRecordRef := ⟨[exampleValue], 0⟩

/-- A concrete two-column record for projection evaluations. -/
def projRecEx : DynRecordRef := ⟨[exampleValue, exampleOptValue], 0⟩

/-- An always-accepting encoding environment writing one byte per column. -/
def cfgOkEx : EncCfg Unit := ⟨fun _ => [7], fun _ _ => none⟩

/-- An always-rejecting encoding environment. -/
def cfgFailEx : EncCfg Unit := ⟨fun _ => [7], fun _ _ => some ()⟩

/-- A column-size assignment matching `cfgOkEx` (every column one byte). -/
def vsizeOne : Value → Nat := fun _ => 1

lemma projectionNull_spec (d : DataType) : projectionNull d = Payload.opt d none := by
  cases d <;> rfl

lemma projectColumns_length (pk : Nat) (mask : Nat → Bool) :
    ∀ (cols : List Value) (s : Nat),
    (projectColumns pk mask s cols).length = cols.length := by
  intro cols
  induction cols with
  | nil => intro s; rfl
  | cons c rest ih => intro s; simp [projectColumns, ih]

lemma projectColumns_get? (pk : Nat) (mask : Nat → Bool) :
    ∀ (cols : List Value) (s i : Nat),
    (projectColumns pk mask s cols).get? i = (cols.get? i).map (fun c =>
      if s + i ≠ pk ∧ mask (s + i + USER_COLUMN_OFFSET) = false then
        { c with value := Payload.opt c.datatype none }
      else c) := by
  intro cols
  induction cols with
  | nil => intro s i; simp [projectColumns]
  | cons c rest ih =>
      intro s i
      cases i with
      | zero => simp [projectColumns, projectionNull_spec]
      | succ i =>
          simp only [projectColumns, List.get?_cons_succ]
          rw [ih (s + 1) i, show s + 1 + i = s + (i + 1) by omega]

lemma projectColumns_idem (pk : Nat) (mask : Nat → Bool) :
    ∀ (cols : List Value) (s : Nat),
    projectColumns pk mask s (projectColumns pk mask s cols) =
      projectColumns pk mask s cols := by
  intro cols
  induction cols with
  | nil => intro s; rfl
  | cons c rest ih =>
      intro s
      by_cases hc : s ≠ pk ∧ mask (s + USER_COLUMN_OFFSET) = false
      · simp [projectColumns, hc, ih]
      · simp [projectColumns, hc, ih]

/-- C2: for every dynamic row and every projection mask (the empty mask
included), `projection` leaves the column at `primary_index` unchanged: the
column (payload value included) after projection equals the one before. -/
theorem projection_primary_invariant (r : DynRecordRef) (mask : Nat → Bool) :
    (r.projection mask).columns.get? r.primary_index =
      r.columns.get? r.primary_index := by
  show (projectColumns r.primary_index mask 0 r.columns).get? r.primary_index = _
  rw [projectColumns_get?]
  cases h : r.columns.get? r.primary_index with
  | none => rfl
  | some c => simp

/-- C3: `projection` keeps the column count, keeps every column's datatype,
name and nullability, replaces the payload of each excluded non-primary
column (leaf position `i + USER_COLUMN_OFFSET` not in the mask) with the
empty sentinel of that column's own declared type tag, and leaves every
other column's payload unchanged. -/
theorem projection_frame (r : DynRecordRef) (mask : Nat → Bool) (i : Nat)
    (c : Value) (h : r.columns.get? i = some c) :
    (r.projection mask).columns.length = r.columns.length ∧
    (r.projection mask).columns.get? i =
      some (if i ≠ r.primary_index ∧ mask (i + USER_COLUMN_OFFSET) = false then
        { c with value := Payload.opt c.datatype none }
      else c) := by
  constructor
  · show (projectColumns r.primary_index mask 0 r.columns).length = _
    exact projectColumns_length r.primary_index mask r.columns 0
  · show (projectColumns r.primary_index mask 0 r.columns).get? i = _
    rw [projectColumns_get?, h]
    simp

/-- C3 witness: the concrete two-column row under the all-excluding mask —
column 1 is not primary and excluded, so its payload becomes the typed null
sentinel of its own tag while name, tag and nullability survive. -/
theorem projection_frame_witness :
    (projRecEx.projection maskNone).columns.length = projRecEx.columns.length ∧
    (projRecEx.projection maskNone).columns.get? 1 =
      some (Value.mk DataType.string "name" (Payload.opt DataType.string none) true) :=
  projection_frame projRecEx maskNone 1 exampleOptValue rfl

/-- C4: `projection` is idempotent — applying the same mask twice yields the
row obtained by applying it once. -/
theorem projection_idempotent (r : DynRecordRef) (mask : Nat → Bool) :
    (r.projection mask).projection mask = r.projection mask := by
  simp [DynRecordRef.projection, projectColumns_idem]

/-- C9 counterexample: the primitive type tag enumeration has exactly
thirteen kinds, not twelve — `DataType` (U8, U16, U32, U64, I8, I16, I32,
I64, F32, F64, Boolean, String, Bytes) has cardinality 13. -/
theorem datatype_not_twelve :
    Fintype.card DataType = 13 ∧ ¬ Fintype.card DataType = 12 := by
  constructor <;> decide

/-- C9 amended: the primitive type tag is a closed enumeration of exactly 13
kinds, and the Projection Applier's per-type dispatch covers exactly those
thirteen, one null-sentinel replacement rule per tag, with no tag missing a
dispatch arm. -/
theorem datatype_closed_dispatch_total :
    Fintype.card DataType = 13 ∧
    ∀ d : DataType, projectionNull d = Payload.opt d none := by
  refine ⟨by decide, ?_⟩
  intro d
  cases d <;> rfl

/-- C10: when `primary_index` is a valid index into `columns`, `key` returns
(a clone of) the column value at that position; when it is out of range the
source `expect`-panics with "The primary key must exist" rather than
returning an error value, modelled by `key` yielding `none`. -/
theorem key_spec (r : DynRecordRef) :
    (∀ h : r.primary_index < r.columns.length,
      r.key = some (r.columns.get ⟨r.primary_index, h⟩)) ∧
    (r.columns.length ≤ r.primary_index → r.key = none) := by
  constructor
  · intro h
    exact List.get?_eq_get h
  · intro h
    exact List.get?_eq_none.mpr h

/-- C10 witness: a singleton row with primary index 0 yields its only column;
an empty row with primary index 3 hits the panic branch. -/
theorem key_spec_witness :
    (DynRecordRef.mk [exampleValue] 0).key = some exampleValue ∧
    (DynRecordRef.mk [] 3).key = none :=
  ⟨(key_spec ⟨[exampleValue], 0⟩).1 (by decide),
   (key_spec ⟨[], 3⟩).2 (by decide)⟩

lemma encodeColumns_ok (cfg : EncCfg ε) :
    ∀ (cols : List Value) (buf out : List Nat),
    encodeColumns cfg buf cols = (out, none) →
    out = buf ++ (cols.map cfg.valueEnc).flatten := by
  intro cols
  induction cols with
  | nil =>
      intro buf out h
      simp [encodeColumns] at h
      simp [h.symm]
  | cons c rest ih =>
      intro buf out h
      simp only [encodeColumns] at h
      cases ha : cfg.accept buf (cfg.valueEnc c) with
      | some e => rw [ha] at h; simp at h
      | none =>
          rw [ha] at h
          have := ih (buf ++ cfg.valueEnc c) out h
          simp [this, List.append_assoc]

lemma encodeColumns_spec (cfg : EncCfg ε) :
    ∀ (cols : List Value) (buf : List Nat),
    ((encodeColumns cfg buf cols).2 = none ↔
      writesOk cfg buf (cols.map cfg.valueEnc) = true) ∧
    (∀ err, (encodeColumns cfg buf cols).2 = some err →
      ∃ k, ∃ hk : k < (cols.map cfg.valueEnc).length, ∃ e,
        err = RecordEncodeError.fusio e ∧
        (encodeColumns cfg buf cols).1 =
          buf ++ ((cols.map cfg.valueEnc).take k).flatten ∧
        cfg.accept (buf ++ ((cols.map cfg.valueEnc).take k).flatten)
          ((cols.map cfg.valueEnc).get ⟨k, hk⟩) = some e) := by
  intro cols
  induction cols with
  | nil =>
      intro buf
      constructor
      · simp [encodeColumns, writesOk]
      · intro err h
        simp [encodeColumns] at h
  | cons c rest ih =>
      intro buf
      constructor
      · simp only [encodeColumns, List.map_cons, writesOk]
        cases ha : cfg.accept buf (cfg.valueEnc c) with
        | some e => simp
        | none => simpa using (ih (buf ++ cfg.valueEnc c)).1
      · intro err h
        simp only [encodeColumns, List.map_cons] at h ⊢
        cases ha : cfg.accept buf (cfg.valueEnc c) with
        | some e =>
            rw [ha] at h
            simp only at h
            refine ⟨0, by simp, e, (Option.some.inj h).symm, by simp, by simpa using ha⟩
        | none =>
            rw [ha] at h
            obtain ⟨k, hk, e, he, hfst, hacc⟩ := (ih (buf ++ cfg.valueEnc c)).2 err h
            refine ⟨k + 1, by simpa using Nat.succ_lt_succ hk, e, he, ?_, ?_⟩
            · simpa [List.append_assoc] using hfst
            · simpa [List.append_assoc] using hacc

lemma u32le_length (n : Nat) : (u32le n).length = 4 := rfl

/-- C6: for every row, `size` returns `2 * size_of(u32)` plus the sum of the
columns' own sizes, and when `encode` succeeds this equals the number of
bytes it appended to the sink — under the hypothesis that each column's
`size` equals the length of that column's own encoding. -/
theorem size_matches_encoded_length (cfg : EncCfg ε) (vsize : Value → Nat)
    (r : DynRecordRef) (buf out : List Nat)
    (hs : ∀ c, vsize c = (cfg.valueEnc c).length)
    (henc : r.encode cfg buf = (out, none)) :
    DynRecordRef.size vsize r = 2 * 4 + (r.columns.map vsize).sum ∧
    out.length = buf.length + DynRecordRef.size vsize r := by
  refine ⟨rfl, ?_⟩
  unfold DynRecordRef.encode at henc
  cases h1 : cfg.accept buf (u32le r.columns.length) with
  | some e => rw [h1] at henc; simp at henc
  | none =>
      rw [h1] at henc
      simp only at henc
      cases h2 : cfg.accept (buf ++ u32le r.columns.length) (u32le r.primary_index) with
      | some e => rw [h2] at henc; simp at henc
      | none =>
          rw [h2] at henc
          simp only at henc
          have hout := encodeColumns_ok cfg r.columns
            (buf ++ u32le r.columns.length ++ u32le r.primary_index) out henc
          have hmap : (r.columns.map cfg.valueEnc).map List.length =
              r.columns.map vsize := by
            rw [List.map_map]
            exact List.map_congr_left (fun a _ => (hs a).symm)
          simp [hout, DynRecordRef.size, u32le_length, hmap]
          omega

/-- C6 witness: the singleton record under the always-accepting sink with
one-byte column encodings — 9 bytes written from an empty buffer, size 9. -/
theorem size_matches_encoded_length_witness :
    DynRecordRef.size vsizeOne encRecEx = 2 * 4 + (encRecEx.columns.map vsizeOne).sum ∧
    (u32le 1 ++ u32le 0 ++ [7]).length = ([] : List Nat).length +
      DynRecordRef.size vsizeOne encRecEx :=
  size_matches_encoded_length cfgOkEx vsizeOne encRecEx ([] : List Nat)
    (u32le 1 ++ u32le 0 ++ [7]) (fun _ => rfl) rfl

/-- C7: `encode` succeeds exactly when the two header writes and every
column's encoding are accepted by the sink, in which case the bytes appended
are the column count as a `u32`, the primary index as a `u32`, then each
column's encoding in declaration order; on any sink failure it returns an
encode error wrapping the underlying sink error, having performed only the
writes before the failing one (columns after it are not written). -/
theorem encode_spec (cfg : EncCfg ε) (r : DynRecordRef) (buf : List Nat) :
    ((r.encode cfg buf).2 = none ↔ writesOk cfg buf (encodePlan cfg r) = true) ∧
    ((r.encode cfg buf).2 = none →
      (r.encode cfg buf).1 = buf ++ (encodePlan cfg r).flatten) ∧
    (∀ err, (r.encode cfg buf).2 = some err →
      ∃ k, ∃ hk : k < (encodePlan cfg r).length, ∃ e,
        err = RecordEncodeError.fusio e ∧
        (r.encode cfg buf).1 = buf ++ ((encodePlan cfg r).take k).flatten ∧
        cfg.accept (buf ++ ((encodePlan cfg r).take k).flatten)
          ((encodePlan cfg r).get ⟨k, hk⟩) = some e) := by
  cases h1 : cfg.accept buf (u32le r.columns.length) with
  | some e =>
      refine ⟨?_, ?_, ?_⟩
      · simp [DynRecordRef.encode, h1, encodePlan, writesOk]
      · intro hnone
        simp [DynRecordRef.encode, h1] at hnone
      · intro err herr
        simp only [DynRecordRef.encode, h1] at herr ⊢
        refine ⟨0, by simp [encodePlan], e, ?_, by simp, by simpa [encodePlan] using h1⟩
        exact (Option.some.inj herr).symm
  | none =>
      cases h2 : cfg.accept (buf ++ u32le r.columns.length) (u32le r.primary_index) with
      | some e =>
          refine ⟨?_, ?_, ?_⟩
          · simp [DynRecordRef.encode, h1, h2, encodePlan, writesOk]
          · intro hnone
            simp [DynRecordRef.encode, h1, h2] at hnone
          · intro err herr
            simp only [DynRecordRef.encode, h1, h2] at herr ⊢
            refine ⟨1, by simp [encodePlan], e, ?_, ?_, ?_⟩
            · exact (Option.some.inj herr).symm
            · simp [encodePlan]
            · simpa [encodePlan] using h2
      | none =>
          have hcol := encodeColumns_spec cfg r.columns
            (buf ++ u32le r.columns.length ++ u32le r.primary_index)
          refine ⟨?_, ?_, ?_⟩
          · simpa [DynRecordRef.encode, h1, h2, encodePlan, writesOk,
              List.append_assoc] using hcol.1
          · intro hnone
            simp only [DynRecordRef.encode, h1, h2] at hnone ⊢
            have hp : encodeColumns cfg
                (buf ++ u32le r.columns.length ++ u32le r.primary_index) r.columns =
                ((encodeColumns cfg
                  (buf ++ u32le r.columns.length ++ u32le r.primary_index)
                  r.columns).1, none) := by
              rw [← hnone]
            have := encodeColumns_ok cfg r.columns
              (buf ++ u32le r.columns.length ++ u32le r.primary_index) _ hp
            rw [this]
            simp [encodePlan, List.append_assoc]
          · intro err herr
            simp only [DynRecordRef.encode, h1, h2] at herr ⊢
            obtain ⟨k, hk, e, he, hfst, hacc⟩ := hcol.2 err herr
            refine ⟨k + 2, ?_, e, he, ?_, ?_⟩
            · simpa [encodePlan] using Nat.succ_lt_succ (Nat.succ_lt_succ hk)
            · simpa [encodePlan, List.append_assoc] using hfst
            · simpa [encodePlan, List.append_assoc] using hacc

/-- C7 witness: under the always-accepting sink the singleton record encodes
successfully with the planned bytes; under the always-rejecting sink the
first write already fails, the error wraps the sink error, and nothing is
written. -/
theorem encode_spec_witness :
    (encRecEx.encode cfgOkEx ([] : List Nat)).2 = none ∧
    (encRecEx.encode cfgOkEx ([] : List Nat)).1 =
      ([] : List Nat) ++ (encodePlan cfgOkEx encRecEx).flatten ∧
    ∃ k, ∃ hk : k < (encodePlan cfgFailEx encRecEx).length, ∃ e,
      (RecordEncodeError.fusio () : RecordEncodeError Unit) =
        RecordEncodeError.fusio e ∧
      (encRecEx.encode cfgFailEx ([] : List Nat)).1 =
        ([] : List Nat) ++ ((encodePlan cfgFailEx encRecEx).take k).flatten ∧
      cfgFailEx.accept
        (([] : List Nat) ++ ((encodePlan cfgFailEx encRecEx).take k).flatten)
        ((encodePlan cfgFailEx encRecEx).get ⟨k, hk⟩) = some e :=
  ⟨(encode_spec cfgOkEx encRecEx ([] : List Nat)).1.mpr rfl,
   (encode_spec cfgOkEx encRecEx ([] : List Nat)).2.1 rfl,
   (encode_spec cfgFailEx encRecEx ([] : List Nat)).2.2
     (RecordEncodeError.fusio ()) rfl⟩

/-- C8: when the full schema's metadata lacks a `primary_key_index` entry, or
the entry does not parse as an unsigned integer, `from_record_batch` aborts —
modelled by `none`; the Rust signature returns a plain `OptionRecordRef` with
no error channel, so no recoverable error can be returned.  When the entry is
present and parsable the fail-fast branch is unreachable: the run equals the
metadata-free continuation `materializeGivenPk` at the parsed index. -/
theorem metadata_fail_fast (batch : RecordBatch) (offset : Nat)
    (mask : Nat → Bool) (fs : FullSchema)
    (contains : ArrowField → ArrowField → Bool) :
    (parsedPrimaryIndex fs = none →
      from_record_batch batch offset mask fs contains = none) ∧
    (∀ pk, parsedPrimaryIndex fs = some pk →
      from_record_batch batch offset mask fs contains =
        materializeGivenPk batch offset mask fs contains pk) := by
  constructor
  · intro h
    cases hb : batch.boolValue? 0 offset with
    | none => simp [from_record_batch, hb]
    | some null => simp [from_record_batch, hb, h]
  · intro pk h
    cases hb : batch.boolValue? 0 offset with
    | none => simp [from_record_batch, materializeGivenPk, hb]
    | some null => simp [from_record_batch, materializeGivenPk, hb, h]

/-- C8 witness: the metadata-free schema aborts the concrete run; the schema
carrying `"0"` runs the metadata-free continuation at index 0. -/
theorem metadata_fail_fast_witness :
    from_record_batch batchEx 0 maskAll fsNoMeta containsName = none ∧
    from_record_batch batchEx 0 maskAll fsEx containsName =
      materializeGivenPk batchEx 0 maskAll fsEx containsName 0 :=
  ⟨(metadata_fail_fast batchEx 0 maskAll fsNoMeta containsName).1 rfl,
   (metadata_fail_fast batchEx 0 maskAll fsEx containsName).2 0 (by decide)⟩

lemma dispatchValue_eq (d : DataType) (col : PhysColumn) (offset idx : Nat)
    (mask : Nat → Bool) (primary : Bool) :
    dispatchValue d col offset idx mask primary =
      primitive_value d col offset idx mask primary := by
  cases d <;> rfl

lemma materializeColumns_get? (batch : RecordBatch) (offset : Nat)
    (mask : Nat → Bool) (pk : Nat) (contains : ArrowField → ArrowField → Bool) :
    ∀ (fields : List ArrowField) (s : Nat) (cols : List Value),
    materializeColumns batch offset mask pk contains s fields = some cols →
    ∀ (k : Nat) (field : ArrowField), fields.get? k = some field →
    ∃ v, materializeField batch offset mask pk contains (s + k) field = some v ∧
      cols.get? k = some v := by
  intro fields
  induction fields with
  | nil => intro s cols h k field hk; simp at hk
  | cons f rest ih =>
      intro s cols h k field hk
      simp only [materializeColumns] at h
      cases hv : materializeField batch offset mask pk contains s f with
      | none => rw [hv] at h; simp at h
      | some v =>
          rw [hv] at h
          cases hrest : materializeColumns batch offset mask pk contains
              (s + 1) rest with
          | none => rw [hrest] at h; simp at h
          | some vs =>
              rw [hrest] at h
              simp at h
              cases k with
              | zero =>
                  have hf : f = field := by simpa using hk
                  subst hf
                  refine ⟨v, by simpa using hv, ?_⟩
                  simp [← h]
              | succ k =>
                  have hk2 : rest.get? k = some field := by simpa using hk
                  obtain ⟨w, hw1, hw2⟩ := ih (s + 1) vs hrest k field hk2
                  refine ⟨w, ?_, ?_⟩
                  · rw [show s + (k + 1) = s + 1 + k by omega]
                    exact hw1
                  · simpa [← h] using hw2

lemma from_record_batch_elim (batch : RecordBatch) (offset : Nat)
    (mask : Nat → Bool) (fs : FullSchema)
    (contains : ArrowField → ArrowField → Bool) (orr : OptionRecordRef)
    (h : from_record_batch batch offset mask fs contains = some orr) :
    ∃ null pk ts cols,
      batch.boolValue? 0 offset = some null ∧
      parsedPrimaryIndex fs = some pk ∧
      batch.u32Value? 1 offset = some ts ∧
      materializeColumns batch offset mask pk contains 2 (fs.fields.drop 2) =
        some cols ∧
      orr = ⟨ts, ⟨cols, pk⟩, null⟩ := by
  unfold from_record_batch at h
  cases h0 : batch.boolValue? 0 offset with
  | none => rw [h0] at h; simp at h
  | some null =>
      rw [h0] at h
      simp only [] at h
      cases h1 : parsedPrimaryIndex fs with
      | none => rw [h1] at h; simp at h
      | some pk =>
          rw [h1] at h
          simp only [] at h
          cases h2 : batch.u32Value? 1 offset with
          | none => rw [h2] at h; simp at h
          | some ts =>
              rw [h2] at h
              simp only [] at h
              cases h3 : materializeColumns batch offset mask pk contains 2
                  (fs.fields.drop 2) with
              | none => rw [h3] at h; simp at h
              | some cols =>
                  rw [h3] at h
                  simp at h
                  exact ⟨null, pk, ts, cols, rfl, rfl, rfl, h3, h.symm⟩

/-- C1: in a row materialized by `from_record_batch`, a full-schema field at
flattened position `idx ≥ 2` with a matching batch column yields, at output
position `idx - 2`: a bare payload read unconditionally from the physical
column (null-bit and mask ignored) when `idx - 2` equals the parsed
`primary_key_index`; otherwise an optional payload present exactly when the
physical value at the row offset is non-null and the mask includes leaf
`idx`, and empty otherwise. -/
theorem materializer_payload (batch : RecordBatch) (offset : Nat)
    (mask : Nat → Bool) (fs : FullSchema)
    (contains : ArrowField → ArrowField → Bool) (orr : OptionRecordRef)
    (pk idx j : Nat) (field bf : ArrowField) (col : PhysColumn)
    (hrun : from_record_batch batch offset mask fs contains = some orr)
    (hpk : parsedPrimaryIndex fs = some pk)
    (hidx : 2 ≤ idx)
    (hfield : fs.fields.get? idx = some field)
    (hfind : findEnum (fun f => contains field f) 0 batch.schema = some (j, bf))
    (hcol : batch.columns.get? j = some col) :
    orr.record.columns.get? (idx - 2) = some (Value.new field.datatype field.name
      (if pk = idx - 2 then Payload.bare (col.get offset)
       else Payload.opt field.datatype
         (if !col.isNull offset && mask idx then some (col.get offset) else none))
      field.nullable) := by
  obtain ⟨null, pk2, ts, cols, h0, h1, h2, h3, horr⟩ :=
    from_record_batch_elim batch offset mask fs contains orr hrun
  have hpk2 : pk2 = pk := Option.some.inj (h1.symm.trans hpk)
  rw [hpk2] at h3 horr
  subst horr
  have hdropget : (fs.fields.drop 2).get? (idx - 2) = some field := by
    rw [List.get?_eq_getElem?, List.getElem?_drop,
      show 2 + (idx - 2) = idx by omega, ← List.get?_eq_getElem?]
    exact hfield
  obtain ⟨v, hv, hvget⟩ := materializeColumns_get? batch offset mask pk contains
    (fs.fields.drop 2) 2 cols h3 (idx - 2) field hdropget
  rw [show 2 + (idx - 2) = idx by omega] at hv
  unfold materializeField at hv
  rw [hfind] at hv
  simp only [] at hv
  rw [hcol] at hv
  simp only [dispatchValue_eq] at hv
  show cols.get? (idx - 2) = _
  rw [hvget]
  by_cases htag : col.tag = field.datatype
  · simp only [primitive_value, htag, if_true] at hv
    rw [← Option.some.inj hv]
    by_cases hprim : pk = idx - 2
    · simp [hprim, Value.new]
    · simp [hprim, Value.new]
  · simp only [primitive_value, htag, if_false] at hv
    simp at hv

/-- C1 witness: the concrete three-column batch with primary key `id` at user
index 0 — field `idx = 2` matches batch column 2 and `idx - 2 = 0` is the
parsed primary index, so the payload is the bare physical value. -/
theorem materializer_payload_witness :
    orrEx.record.columns.get? 0 =
      some (Value.new DataType.uint8 "id" (Payload.bare (Prim.u8 5)) false) :=
  materializer_payload batchEx 0 maskAll fsEx containsName orrEx 0 2 2 fldId
    fldId colId rfl rfl (by decide) rfl rfl rfl

/-- C5: a full-schema field at flattened position `idx ≥ 2` with no matching
field in the batch's own pruned schema materializes, at output position
`idx - 2` and for every projection mask, as a column value carrying the
field's declared name and nullability whose payload is the typed null
sentinel of the field's declared type. -/
theorem missing_column_default (batch : RecordBatch) (offset : Nat)
    (mask : Nat → Bool) (fs : FullSchema)
    (contains : ArrowField → ArrowField → Bool) (orr : OptionRecordRef)
    (idx : Nat) (field : ArrowField)
    (hrun : from_record_batch batch offset mask fs contains = some orr)
    (hidx : 2 ≤ idx)
    (hfield : fs.fields.get? idx = some field)
    (hfind : findEnum (fun f => contains field f) 0 batch.schema = none) :
    orr.record.columns.get? (idx - 2) =
      some (Value.mk field.datatype field.name (Payload.opt field.datatype none)
        field.nullable) := by
  obtain ⟨null, pk, ts, cols, h0, h1, h2, h3, horr⟩ :=
    from_record_batch_elim batch offset mask fs contains orr hrun
  subst horr
  have hdropget : (fs.fields.drop 2).get? (idx - 2) = some field := by
    rw [List.get?_eq_getElem?, List.getElem?_drop,
      show 2 + (idx - 2) = idx by omega, ← List.get?_eq_getElem?]
    exact hfield
  obtain ⟨v, hv, hvget⟩ := materializeColumns_get? batch offset mask pk contains
    (fs.fields.drop 2) 2 cols h3 (idx - 2) field hdropget
  unfold materializeField at hv
  rw [hfind] at hv
  show cols.get? (idx - 2) = _
  rw [hvget, ← Option.some.inj hv]
  rfl

/-- C5 witness: the pruned batch lacks the `id` column, so the materialized
column 0 is the typed null sentinel of `id`'s declared type. -/
theorem missing_column_default_witness :
    orrPruned.record.columns.get? 0 =
      some (Value.mk DataType.uint8 "id" (Payload.opt DataType.uint8 none) false) :=
  missing_column_default batchPruned 0 maskAll fsEx containsName orrPruned 2
    fldId rfl (by decide) rfl rfl
